import Mathlib

/-!
Shallow embedding of the admission-control layer of `src/main_secure.py`
(HyperLiquid MCP server): the API-key authentication middleware
(`AuthMiddleware.dispatch`), the per-client sliding-window rate limiter
(`check_rate_limit`), the rate-limited tool wrappers
(`get_account_balance`, `market_open_position`), and the stdio/HTTP mode
selection in `main`.

Timestamps are modelled as integers (`datetime.now()` values on an
arbitrary integer timeline).  The rate-limit storage, a Python
`defaultdict(list)`, is modelled as a total function `String → List ℤ`
whose default value is the empty list.  Configuration values
(`REQUIRE_AUTH`, `API_KEY`, `RATE_LIMIT`, `RATE_LIMIT_WINDOW`) are
passed as parameters since they are read once at startup and constant
thereafter.
-/

namespace LandoTrade

/-- The rate-limit storage: `rate_limit_storage = defaultdict(list)`,
a total map from client identity to its list of request timestamps
(missing key = empty list, matching `defaultdict` semantics). -/
abbrev Storage := String → List ℤ

/-- The storage at process start: no timestamps recorded for any identity. -/
def emptyStorage : Storage := fun _ => []

/-- `RATE_LIMIT_WINDOW = 60` seconds, from `src/main_secure.py` line 68. -/
def RATE_LIMIT_WINDOW : ℤ := 60

/-- Embedding of `check_rate_limit(client_id)` (`src/main_secure.py`
lines 70-90).  If `REQUIRE_AUTH` is false it admits without touching the
storage.  Otherwise it reassigns the identity's list to the pruned list
keeping exactly the timestamps strictly greater than `now - window`
(Python: `req_time > minute_ago`), rejects when the pruned length is at
least `RATE_LIMIT`, and otherwise appends `now` and admits.  Returns the
admit/reject boolean together with the storage after the call. -/
def checkRateLimit (requireAuth : Bool) (rateLimit : ℕ) (window : ℤ)
    (clientId : String) (now : ℤ) (σ : Storage) : Bool × Storage :=
  if requireAuth = false then (true, σ)
  else
    let pruned := (σ clientId).filter (fun t => decide (now - window < t))
    if rateLimit ≤ pruned.length then
      (false, Function.update σ clientId pruned)
    else
      (true, Function.update σ clientId (pruned ++ [now]))

/-- An inbound HTTP request as seen by `AuthMiddleware.dispatch`: its
path, the value of the `X-API-Key` header (if present), and the value of
the `api_key` query parameter (if present). -/
structure HttpRequest where
  path : String
  headerXApiKey : Option String
  queryApiKey : Option String
deriving DecidableEq

/-- Outcome of `AuthMiddleware.dispatch`: either the request is forwarded
to `call_next`, or a JSON error response is returned with the given
status code and error message. -/
inductive AuthDecision where
  | forwarded : AuthDecision
  | unauthorized (status : ℕ) (errorMsg : String) : AuthDecision
deriving DecidableEq

/-- Python `a or b` on two optional strings, where `None` and the empty
string are falsy: yields `a`'s value when it is a non-empty string,
otherwise `b`. -/
def pyOrString (a b : Option String) : Option String :=
  match a with
  | some s => if s = "" then b else some s
  | none => b

/-- The credential extracted by `AuthMiddleware.dispatch` line 45:
`request.headers.get("X-API-Key") or request.query_params.get("api_key")`. -/
def suppliedApiKey (req : HttpRequest) : Option String :=
  pyOrString req.headerXApiKey req.queryApiKey

/-- Embedding of `AuthMiddleware.dispatch` (`src/main_secure.py` lines
38-53).  Health-check requests are forwarded unconditionally.  When
`REQUIRE_AUTH` is true and `API_KEY` is truthy (non-empty), the
extracted credential is compared with `API_KEY`; on mismatch a 401
response with message "Unauthorized - Invalid API Key" is returned,
otherwise the request is forwarded. -/
def authDispatch (requireAuth : Bool) (apiKeyCfg : String) (req : HttpRequest) :
    AuthDecision :=
  if req.path = "/health" then AuthDecision.forwarded
  else if requireAuth = true ∧ apiKeyCfg ≠ "" then
    if suppliedApiKey req ≠ some apiKeyCfg then
      AuthDecision.unauthorized 401 "Unauthorized - Invalid API Key"
    else AuthDecision.forwarded
  else AuthDecision.forwarded

/-- Result of a rate-limited tool: either the structured error payload
(a dict with key "error" and the given message) or the value returned by
the delegated external service. -/
inductive ToolResult (α : Type) where
  | errorPayload (msg : String) : ToolResult α
  | ok (a : α) : ToolResult α
deriving DecidableEq

/-- Embedding of the tool `get_account_balance` (`src/main_secure.py`
lines 121-126).  `service` stands for the external
`service.get_account_balance` coroutine; the tool first calls
`check_rate_limit("default")`, returns the error payload
"Rate limit exceeded" on rejection, and otherwise returns the service's
result unmodified.  The second component is the storage after the
rate-limit check. -/
def get_account_balance {α : Type} (requireAuth : Bool) (rateLimit : ℕ)
    (window : ℤ) (now : ℤ) (σ : Storage) (service : Unit → α) :
    ToolResult α × Storage :=
  let r := checkRateLimit requireAuth rateLimit window "default" now σ
  if r.1 = false then (ToolResult.errorPayload "Rate limit exceeded", r.2)
  else (ToolResult.ok (service ()), r.2)

/-- Embedding of the tool `market_open_position` (`src/main_secure.py`
lines 142-166).  `service` stands for the external
`service.market_open_position`; on admission it is invoked with the
caller's six arguments in order and its result is returned unmodified.
Float arguments are modelled as rationals; they are only forwarded,
never computed with. -/
def market_open_position {α : Type} (requireAuth : Bool) (rateLimit : ℕ)
    (window : ℤ) (now : ℤ) (σ : Storage)
    (symbol : String) (side : String) (sizeInDollars : ℚ)
    (leverage : Option ℤ) (reduceOnly : Bool) (slippageTolerance : ℚ)
    (service : String → String → ℚ → Option ℤ → Bool → ℚ → α) :
    ToolResult α × Storage :=
  let r := checkRateLimit requireAuth rateLimit window "default" now σ
  if r.1 = false then (ToolResult.errorPayload "Rate limit exceeded", r.2)
  else
    (ToolResult.ok
      (service symbol side sizeInDollars leverage reduceOnly slippageTolerance),
      r.2)

/-- The mode test in `main` (`src/main_secure.py` line 207):
`len(sys.argv) > 1 and sys.argv[1] == "stdio"`. -/
def runsInStdioMode (argv : List String) : Bool :=
  match argv.get? 1 with
  | some a => decide (a = "stdio")
  | none => false

/-- Whether `main` installs `AuthMiddleware` on the app: the call
`app.add_middleware(AuthMiddleware)` (line 225) appears only in the
HTTP-server branch of `main`; the stdio branch (lines 208-210) starts
`Server(mcp)` without it. -/
def installsAuthMiddleware (argv : List String) : Bool :=
  !runsInStdioMode argv

/-- Run a sequence of `check_rate_limit` calls (enforcement enabled) for
a fixed client identity at the given successive times.  The accumulator
carries the storage and the list of admitted timestamps so far; the
result is the final storage and the chronological list of all admitted
timestamps. -/
def runRL (rateLimit : ℕ) (window : ℤ) (clientId : String) :
    List ℤ → Storage × List ℤ → Storage × List ℤ
  | [], acc => acc
  | t :: ts, acc =>
    let r := checkRateLimit true rateLimit window clientId t acc.1
    runRL rateLimit window clientId ts
      (r.2, acc.2 ++ (if r.1 then [t] else []))

/-- The storages reachable by the program: the empty storage, followed
by any sequence of `check_rate_limit` calls with enforcement enabled
(calls with enforcement disabled leave the storage untouched). -/
inductive RLReachable (rateLimit : ℕ) (window : ℤ) : Storage → Prop where
  | init : RLReachable rateLimit window emptyStorage
  | step (clientId : String) (t : ℤ) (σ : Storage) :
      RLReachable rateLimit window σ →
      RLReachable rateLimit window
        (checkRateLimit true rateLimit window clientId t σ).2

/-- Number of timestamps in `l` lying in the trailing window `(T - W, T]`. -/
def windowCount (window T : ℤ) (l : List ℤ) : ℕ :=
  l.countP (fun x => decide (T - window < x ∧ x ≤ T))

/-- Number of timestamps in `l` strictly newer than `t - window`. -/
def recentCount (window t : ℤ) (l : List ℤ) : ℕ :=
  l.countP (fun x => decide (t - window < x))

/-- Invariant tying the storage to the history of admitted timestamps of
one client identity.  `tp` is the time of the most recent completed
check: every admitted timestamp is at most `tp`, the stored log is
exactly the admitted timestamps newer than `tp - window`, and no
trailing window of length `window` holds more than `rateLimit` admitted
timestamps. -/
def GoodAcc (rateLimit : ℕ) (window : ℤ) (clientId : String) (tp : ℤ)
    (acc : Storage × List ℤ) : Prop :=
  (∀ x ∈ acc.2, x ≤ tp) ∧
  acc.1 clientId = acc.2.filter (fun x => decide (tp - window < x)) ∧
  ∀ T : ℤ, windowCount window T acc.2 ≤ rateLimit

theorem checkRateLimit_true_def (rateLimit : ℕ) (window : ℤ) (clientId : String)
    (now : ℤ) (σ : Storage) :
    checkRateLimit true rateLimit window clientId now σ =
      if rateLimit ≤ ((σ clientId).filter (fun x => decide (now - window < x))).length
      then (false, Function.update σ clientId
        ((σ clientId).filter (fun x => decide (now - window < x))))
      else (true, Function.update σ clientId
        ((σ clientId).filter (fun x => decide (now - window < x)) ++ [now])) := rfl

theorem filter_window_mono (window : ℤ) {tp t : ℤ} (h : tp ≤ t) (adm : List ℤ) :
    (adm.filter (fun x => decide (tp - window < x))).filter
        (fun x => decide (t - window < x)) =
      adm.filter (fun x => decide (t - window < x)) := by
  rw [List.filter_filter]
  apply List.filter_congr
  intro x _
  by_cases hx : t - window < x
  · have : tp - window < x := by linarith
    simp [hx, this]
  · simp [hx]

theorem goodAcc_step (rateLimit : ℕ) (window : ℤ) (clientId : String)
    {tp t : ℤ} {σ : Storage} {adm : List ℤ} (hW : 0 < window)
    (h : GoodAcc rateLimit window clientId tp (σ, adm)) (hle : tp ≤ t) :
    GoodAcc rateLimit window clientId t
      ((checkRateLimit true rateLimit window clientId t σ).2,
        adm ++ (if (checkRateLimit true rateLimit window clientId t σ).1
          then [t] else [])) ∧
    ((checkRateLimit true rateLimit window clientId t σ).1 = true ↔
      recentCount window t adm < rateLimit) := by
  obtain ⟨hub, hlog, hsp⟩ := h
  dsimp only at hub hlog hsp
  have hpr : (σ clientId).filter (fun x => decide (t - window < x)) =
      adm.filter (fun x => decide (t - window < x)) := by
    rw [hlog]; exact filter_window_mono window hle adm
  have hlen : ((σ clientId).filter (fun x => decide (t - window < x))).length =
      recentCount window t adm := by
    rw [hpr, recentCount, List.countP_eq_length_filter]
  by_cases hq : rateLimit ≤
      ((σ clientId).filter (fun x => decide (t - window < x))).length
  · have hck : checkRateLimit true rateLimit window clientId t σ =
        (false, Function.update σ clientId
          ((σ clientId).filter (fun x => decide (t - window < x)))) := by
      rw [checkRateLimit_true_def, if_pos hq]
    have hq' : rateLimit ≤ recentCount window t adm := hlen ▸ hq
    rw [hck]
    refine ⟨⟨?_, ?_, ?_⟩, ?_⟩
    · intro x hx
      have hx' : x ∈ adm := by simpa using hx
      exact le_trans (hub x hx') hle
    · simp [Function.update_same, hpr]
    · intro T
      simpa using hsp T
    · simp only []
      constructor
      · intro hfalse
        exact absurd hfalse (by simp)
      · intro hlt
        omega
  · have hck : checkRateLimit true rateLimit window clientId t σ =
        (true, Function.update σ clientId
          ((σ clientId).filter (fun x => decide (t - window < x)) ++ [t])) := by
      rw [checkRateLimit_true_def, if_neg hq]
    have hq' : recentCount window t adm < rateLimit := by
      rw [← hlen]; omega
    have htw : t - window < t := by linarith
    rw [hck]
    refine ⟨⟨?_, ?_, ?_⟩, by simp [hq']⟩
    · intro x hx
      have hx2 : x ∈ adm ∨ x = t := by simpa using hx
      rcases hx2 with hx' | hx'
      · exact le_trans (hub x hx') hle
      · exact le_of_eq hx'
    · simp [Function.update_same, List.filter_append, hpr, htw]
    · intro T
      have hred : (adm ++ if ((true, Function.update σ clientId
            ((σ clientId).filter (fun x => decide (t - window < x)) ++ [t])).1 : Bool)
            then [t] else []) = adm ++ [t] := by simp
      rw [hred]
      simp only [windowCount, List.countP_append]
      by_cases hT : T - window < t ∧ t ≤ T
      · have hmono : adm.countP (fun x => decide (T - window < x ∧ x ≤ T)) ≤
            adm.countP (fun x => decide (t - window < x)) := by
          apply List.countP_mono_left
          intro x _ hx
          simp only [decide_eq_true_eq] at hx ⊢
          obtain ⟨hx1, hx2⟩ := hx
          have hTt : t - window ≤ T - window := by linarith [hT.2]
          linarith
        have h1 : List.countP (fun x => decide (T - window < x ∧ x ≤ T)) [t] ≤ 1 := by
          simp only [List.countP_cons, List.countP_nil]
          split <;> simp
        have h2 := hq'
        simp only [recentCount] at h2
        omega
      · have h1 : List.countP (fun x => decide (T - window < x ∧ x ≤ T)) [t] = 0 := by
          simp [List.countP_cons, hT]
        have h2 := hsp T
        simp only [windowCount] at h2
        omega

theorem goodAcc_run (rateLimit : ℕ) (window : ℤ) (clientId : String)
    (hW : 0 < window) (ts : List ℤ) :
    ∀ (tp : ℤ) (σ : Storage) (adm : List ℤ),
      GoodAcc rateLimit window clientId tp (σ, adm) →
      List.Chain (· ≤ ·) tp ts →
      ∃ tl, (tl = tp ∨ tl ∈ ts) ∧
        GoodAcc rateLimit window clientId tl
          (runRL rateLimit window clientId ts (σ, adm)) := by
  induction ts with
  | nil =>
    intro tp σ adm hg _
    exact ⟨tp, Or.inl rfl, hg⟩
  | cons t ts ih =>
    intro tp σ adm hg hch
    rcases hch with _ | ⟨hle, hch'⟩
    have hstep := (goodAcc_step rateLimit window clientId hW hg hle).1
    obtain ⟨tl, htl, hgood⟩ := ih t _ _ hstep hch'
    refine ⟨tl, ?_, by simpa [runRL] using hgood⟩
    rcases htl with rfl | h
    · exact Or.inr (List.mem_cons_self _ _)
    · exact Or.inr (List.mem_cons_of_mem _ h)

theorem reachable_length_le (rateLimit : ℕ) (window : ℤ) {σ : Storage}
    (h : RLReachable rateLimit window σ) : ∀ c, (σ c).length ≤ rateLimit := by
  induction h with
  | init => intro c; simp [emptyStorage]
  | step c' t σ' h' ih =>
    intro c
    by_cases hq : rateLimit ≤
        ((σ' c').filter (fun x => decide (t - window < x))).length
    · have hck : checkRateLimit true rateLimit window c' t σ' =
          (false, Function.update σ' c'
            ((σ' c').filter (fun x => decide (t - window < x)))) := by
        rw [checkRateLimit_true_def, if_pos hq]
      rw [hck]
      by_cases hc : c = c'
      · subst hc
        dsimp only
        rw [Function.update_same]
        exact le_trans (List.filter_sublist _).length_le (ih c)
      · dsimp only
        rw [Function.update_noteq hc]
        exact ih c
    · have hck : checkRateLimit true rateLimit window c' t σ' =
          (true, Function.update σ' c'
            ((σ' c').filter (fun x => decide (t - window < x)) ++ [t])) := by
        rw [checkRateLimit_true_def, if_neg hq]
      rw [hck]
      by_cases hc : c = c'
      · subst hc
        dsimp only
        rw [Function.update_same, List.length_append]
        simp only [List.length_singleton]
        omega
      · dsimp only
        rw [Function.update_noteq hc]
        exact ih c

/-- C1: with enforcement enabled, quota `rateLimit` and window `window`
seconds, running any nondecreasing sequence of checks for one identity
from the initial storage gives: (i) the admitted timestamps contain at
most `rateLimit` entries in every trailing window `(T - window, T]`
("the number of admitted requests within any trailing window never
exceeds the quota"); and (ii) a further check at any time `t` at or
after all previous checks admits exactly when fewer than `rateLimit`
admitted timestamps are newer than `t - window` — so if `rateLimit`
requests were admitted within a span shorter than `window` containing
`t`, all of them are newer than `t - window` and the check rejects,
and once more than `window` seconds have elapsed past the earliest of
those admitted timestamps (leaving fewer than `rateLimit` admitted
timestamps newer than `t - window`), the check admits. -/
theorem sliding_window_guarantee (rateLimit : ℕ) (window : ℤ) (clientId : String)
    (ts : List ℤ) (hW : 0 < window) (hts : List.Chain' (· ≤ ·) ts) :
    (∀ T : ℤ,
      windowCount window T
        (runRL rateLimit window clientId ts (emptyStorage, [])).2 ≤ rateLimit) ∧
    (∀ t : ℤ, (∀ x ∈ ts, x ≤ t) →
      ((checkRateLimit true rateLimit window clientId t
          (runRL rateLimit window clientId ts (emptyStorage, [])).1).1 = true ↔
        recentCount window t
          (runRL rateLimit window clientId ts (emptyStorage, [])).2 < rateLimit)) := by
  rcases ts with _ | ⟨t₀, ts'⟩
  · constructor
    · intro T
      simp [runRL, windowCount]
    · intro t _
      have hg : GoodAcc rateLimit window clientId t (emptyStorage, []) :=
        ⟨by simp, by simp [emptyStorage], fun T => by simp [windowCount]⟩
      have hstep := (goodAcc_step rateLimit window clientId hW hg (le_refl t)).2
      simpa [runRL] using hstep
  · have hg0 : GoodAcc rateLimit window clientId t₀ (emptyStorage, []) :=
      ⟨by simp, by simp [emptyStorage], fun T => by simp [windowCount]⟩
    have hch : List.Chain (· ≤ ·) t₀ (t₀ :: ts') :=
      List.Chain.cons (le_refl t₀) hts
    obtain ⟨tl, htl, hg⟩ := goodAcc_run rateLimit window clientId hW
      (t₀ :: ts') t₀ emptyStorage [] hg0 hch
    constructor
    · intro T
      exact hg.2.2 T
    · intro t ht
      have htlt : tl ≤ t := by
        rcases htl with heq | hmem
        · rw [heq]; exact ht t₀ (List.mem_cons_self _ _)
        · exact ht tl hmem
      exact (goodAcc_step rateLimit window clientId hW hg htlt).2

theorem sliding_window_guarantee_witness :
    (0 < (60:ℤ)) ∧ List.Chain' (· ≤ ·) [(0:ℤ), 1, 2] ∧
    ((∀ T : ℤ,
      windowCount 60 T (runRL 2 60 "default" [0, 1, 2] (emptyStorage, [])).2 ≤ 2) ∧
     (∀ t : ℤ, (∀ x ∈ [(0:ℤ), 1, 2], x ≤ t) →
      ((checkRateLimit true 2 60 "default" t
          (runRL 2 60 "default" [0, 1, 2] (emptyStorage, [])).1).1 = true ↔
        recentCount 60 t
          (runRL 2 60 "default" [0, 1, 2] (emptyStorage, [])).2 < 2))) :=
  ⟨by decide, by norm_num [List.chain'_cons, List.chain'_singleton],
    sliding_window_guarantee 2 60 "default" [0, 1, 2] (by decide)
      (by norm_num [List.chain'_cons, List.chain'_singleton])⟩

/-- C2: on every storage the program can actually reach, a call to
`check_rate_limit` that rejects leaves the whole storage — in particular
the identity's timestamp log — unchanged: rejection means the pruned
list already has at least `rateLimit` entries, and since reachable logs
never exceed `rateLimit` entries the pruning kept every entry, so the
reassignment stores back the identical list. -/
theorem rejected_check_leaves_log_unchanged (rateLimit : ℕ) (window : ℤ)
    (clientId : String) (t : ℤ) (σ : Storage)
    (h : RLReachable rateLimit window σ)
    (hrej : (checkRateLimit true rateLimit window clientId t σ).1 = false) :
    (checkRateLimit true rateLimit window clientId t σ).2 = σ := by
  have hlen := reachable_length_le rateLimit window h clientId
  by_cases hq : rateLimit ≤
      ((σ clientId).filter (fun x => decide (t - window < x))).length
  · have hck : checkRateLimit true rateLimit window clientId t σ =
        (false, Function.update σ clientId
          ((σ clientId).filter (fun x => decide (t - window < x)))) := by
      rw [checkRateLimit_true_def, if_pos hq]
    rw [hck]
    have hsub : ((σ clientId).filter
        (fun x => decide (t - window < x))).Sublist (σ clientId) :=
      List.filter_sublist _
    have heq : ((σ clientId).filter (fun x => decide (t - window < x))).length =
        (σ clientId).length :=
      le_antisymm hsub.length_le (by omega)
    dsimp only
    rw [hsub.eq_of_length heq, Function.update_eq_self]
  · have hck : checkRateLimit true rateLimit window clientId t σ =
        (true, Function.update σ clientId
          ((σ clientId).filter (fun x => decide (t - window < x)) ++ [t])) := by
      rw [checkRateLimit_true_def, if_neg hq]
    rw [hck] at hrej
    exact absurd hrej (by simp)

theorem rejected_check_leaves_log_unchanged_witness :
    (checkRateLimit true 1 60 "default" 1
        (checkRateLimit true 1 60 "default" 0 emptyStorage).2).1 = false ∧
    (checkRateLimit true 1 60 "default" 1
        (checkRateLimit true 1 60 "default" 0 emptyStorage).2).2 =
      (checkRateLimit true 1 60 "default" 0 emptyStorage).2 :=
  ⟨by decide,
    rejected_check_leaves_log_unchanged 1 60 "default" 1 _
      (RLReachable.step "default" 0 emptyStorage RLReachable.init) (by decide)⟩

/-- C3: for a request to a non-health path with enforcement enabled and
a non-empty configured secret, `AuthMiddleware.dispatch` forwards the
request iff the supplied credential (header value if truthy, else query
parameter) is exactly string-equal to the configured secret, and on
mismatch returns the 401 response with the structured error body
"Unauthorized - Invalid API Key". -/
theorem auth_admits_iff_credential_matches (apiKeyCfg : String)
    (req : HttpRequest) (hpath : req.path ≠ "/health") (hkey : apiKeyCfg ≠ "") :
    (authDispatch true apiKeyCfg req = AuthDecision.forwarded ↔
      suppliedApiKey req = some apiKeyCfg) ∧
    (suppliedApiKey req ≠ some apiKeyCfg →
      authDispatch true apiKeyCfg req =
        AuthDecision.unauthorized 401 "Unauthorized - Invalid API Key") := by
  by_cases hs : suppliedApiKey req = some apiKeyCfg
  · constructor
    · simp [authDispatch, hpath, hkey, hs]
    · intro hne
      exact absurd hs hne
  · constructor
    · simp [authDispatch, hpath, hkey, hs]
    · intro _
      simp [authDispatch, hpath, hkey, hs]

theorem auth_admits_iff_credential_matches_witness :
    ((Unit.unit = Unit.unit) ∧
      authDispatch true "s3cret" ⟨"/tools", some "s3cret", none⟩ =
        AuthDecision.forwarded) ∧
    authDispatch true "s3cret" ⟨"/tools", some "wrong", none⟩ =
      AuthDecision.unauthorized 401 "Unauthorized - Invalid API Key" :=
  ⟨⟨rfl,
    (auth_admits_iff_credential_matches "s3cret" ⟨"/tools", some "s3cret", none⟩
      (by decide) (by decide)).1.mpr (by decide)⟩,
    (auth_admits_iff_credential_matches "s3cret" ⟨"/tools", some "wrong", none⟩
      (by decide) (by decide)).2 (by decide)⟩

/-- C4: with enforcement enabled but an empty configured secret, the
guard `REQUIRE_AUTH and API_KEY` is falsy, so `AuthMiddleware.dispatch`
forwards every request whatever credential is (or is not) supplied. -/
theorem empty_secret_disables_auth (req : HttpRequest) :
    authDispatch true "" req = AuthDecision.forwarded := by
  unfold authDispatch
  by_cases hp : req.path = "/health"
  · rw [if_pos hp]
  · rw [if_neg hp, if_neg (by simp)]

/-- C5 counterexample: a request whose `api_key` query parameter equals
the configured secret but whose `X-API-Key` header carries a different
non-empty value is rejected, because the header value takes precedence
in `headers.get("X-API-Key") or query_params.get("api_key")`.  This
refutes "admitted whenever at least one of the two supplied values
equals the configured secret". -/
theorem header_precedence_counterexample :
    (HttpRequest.mk "/tools" (some "wrong") (some "s3cret")).queryApiKey =
      some "s3cret" ∧
    authDispatch true "s3cret"
        (HttpRequest.mk "/tools" (some "wrong") (some "s3cret")) ≠
      AuthDecision.forwarded := by
  constructor
  · rfl
  · intro h
    exact absurd h (by decide)

/-- C5 amended: the two transports are not symmetric; the header takes
precedence.  When the header is absent or empty the request is admitted
iff the query parameter equals the configured secret; when the header
carries a non-empty value the request is admitted iff that header value
equals the secret (so a correct query parameter admits only when no
non-empty header is supplied). -/
theorem credential_transport_header_precedence (apiKeyCfg : String)
    (req : HttpRequest) (hpath : req.path ≠ "/health") (hkey : apiKeyCfg ≠ "") :
    ((req.headerXApiKey = none ∨ req.headerXApiKey = some "") →
      (authDispatch true apiKeyCfg req = AuthDecision.forwarded ↔
        req.queryApiKey = some apiKeyCfg)) ∧
    (∀ h : String, req.headerXApiKey = some h → h ≠ "" →
      (authDispatch true apiKeyCfg req = AuthDecision.forwarded ↔
        h = apiKeyCfg)) := by
  constructor
  · intro hh
    have hs : suppliedApiKey req = req.queryApiKey := by
      rcases hh with hh | hh <;> simp [suppliedApiKey, pyOrString, hh]
    by_cases hq : req.queryApiKey = some apiKeyCfg
    · simp [authDispatch, hpath, hkey, hs, hq]
    · simp [authDispatch, hpath, hkey, hs, hq]
  · intro h hh hne
    have hs : suppliedApiKey req = some h := by
      simp [suppliedApiKey, pyOrString, hh, hne]
    by_cases hq : h = apiKeyCfg
    · simp [authDispatch, hpath, hkey, hs, hq]
    · simp [authDispatch, hpath, hkey, hs, hq]

theorem credential_transport_header_precedence_witness :
    (authDispatch true "k1" ⟨"/t", none, some "k1"⟩ =
      AuthDecision.forwarded) ∧
    (authDispatch true "k1" ⟨"/t", some "w", some "k1"⟩ =
      AuthDecision.forwarded ↔ "w" = "k1") :=
  ⟨((credential_transport_header_precedence "k1" ⟨"/t", none, some "k1"⟩
      (by decide) (by decide)).1 (Or.inl rfl)).mpr (by decide),
    (credential_transport_header_precedence "k1" ⟨"/t", some "w", some "k1"⟩
      (by decide) (by decide)).2 "w" rfl (by decide)⟩

/-- C6: every request whose path is "/health" is forwarded by
`AuthMiddleware.dispatch`, for every enforcement flag, configured
secret, and supplied or absent credential. -/
theorem health_path_always_admitted (requireAuth : Bool) (apiKeyCfg : String)
    (hdr qry : Option String) :
    authDispatch requireAuth apiKeyCfg ⟨"/health", hdr, qry⟩ =
      AuthDecision.forwarded := by
  unfold authDispatch
  rw [if_pos rfl]

/-- C7: with enforcement disabled, `check_rate_limit` returns admission
and the whole rate-limit storage is unchanged — no bookkeeping at all,
for every identity, time, quota, window and storage state. -/
theorem disabled_mode_no_bookkeeping (rateLimit : ℕ) (window : ℤ)
    (clientId : String) (t : ℤ) (σ : Storage) :
    checkRateLimit false rateLimit window clientId t σ = (true, σ) := rfl

/-- C8: immediately after any enforcement-enabled `check_rate_limit`
call whose observed time `t` is at or after every timestamp already in
the identity's log, every timestamp in that identity's log lies in
`[t - window, t]`; and if the call admitted, the log's length is at
most the quota. -/
theorem post_check_log_invariant (rateLimit : ℕ) (window : ℤ)
    (clientId : String) (t : ℤ) (σ : Storage) (hW : 0 ≤ window)
    (hpast : ∀ x ∈ σ clientId, x ≤ t) :
    (∀ x ∈ (checkRateLimit true rateLimit window clientId t σ).2 clientId,
      t - window ≤ x ∧ x ≤ t) ∧
    ((checkRateLimit true rateLimit window clientId t σ).1 = true →
      ((checkRateLimit true rateLimit window clientId t σ).2 clientId).length
        ≤ rateLimit) := by
  by_cases hq : rateLimit ≤
      ((σ clientId).filter (fun x => decide (t - window < x))).length
  · have hck : checkRateLimit true rateLimit window clientId t σ =
        (false, Function.update σ clientId
          ((σ clientId).filter (fun x => decide (t - window < x)))) := by
      rw [checkRateLimit_true_def, if_pos hq]
    rw [hck]
    dsimp only
    rw [Function.update_same]
    constructor
    · intro x hx
      have hm := List.mem_filter.1 hx
      have hlt : t - window < x := by simpa using hm.2
      exact ⟨le_of_lt hlt, hpast x hm.1⟩
    · intro h
      exact absurd h (by simp)
  · have hck : checkRateLimit true rateLimit window clientId t σ =
        (true, Function.update σ clientId
          ((σ clientId).filter (fun x => decide (t - window < x)) ++ [t])) := by
      rw [checkRateLimit_true_def, if_neg hq]
    rw [hck]
    dsimp only
    rw [Function.update_same]
    constructor
    · intro x hx
      rcases List.mem_append.1 hx with hx' | hx'
      · have hm := List.mem_filter.1 hx'
        have hlt : t - window < x := by simpa using hm.2
        exact ⟨le_of_lt hlt, hpast x hm.1⟩
      · have hx2 : x = t := by simpa using hx'
        subst hx2
        exact ⟨by linarith, le_refl x⟩
    · intro _
      rw [List.length_append]
      simp only [List.length_singleton]
      omega

theorem post_check_log_invariant_witness :
    ((0:ℤ) ≤ 60) ∧
    ((∀ x ∈ (checkRateLimit true 60 60 "default" 5 emptyStorage).2 "default",
        (5:ℤ) - 60 ≤ x ∧ x ≤ 5) ∧
      ((checkRateLimit true 60 60 "default" 5 emptyStorage).1 = true →
        ((checkRateLimit true 60 60 "default" 5 emptyStorage).2 "default").length
          ≤ 60)) :=
  ⟨by decide,
    post_check_log_invariant 60 60 "default" 5 emptyStorage (by decide)
      (by simp [emptyStorage])⟩

/-- C9: each exposed tool first consults the rate limiter.  On
rejection it returns exactly the structured payload
(error: "Rate limit exceeded") together with the post-check storage,
and its result does not depend on the external service at all (the
service is never invoked): the outcome is identical for any two service
functions.  On admission it returns the service's value, produced by
invoking it with the caller's arguments in order, unmodified.  Stated
for `get_account_balance` and `market_open_position`. -/
theorem tools_gate_on_rate_limiter {α β : Type} (requireAuth : Bool)
    (rateLimit : ℕ) (window now : ℤ) (σ : Storage) (f g : Unit → α)
    (symbol side : String) (sz : ℚ) (lev : Option ℤ) (ro : Bool) (st : ℚ)
    (sv sv2 : String → String → ℚ → Option ℤ → Bool → ℚ → β) :
    ((checkRateLimit requireAuth rateLimit window "default" now σ).1 = false →
      get_account_balance requireAuth rateLimit window now σ f =
        (ToolResult.errorPayload "Rate limit exceeded",
          (checkRateLimit requireAuth rateLimit window "default" now σ).2) ∧
      get_account_balance requireAuth rateLimit window now σ f =
        get_account_balance requireAuth rateLimit window now σ g ∧
      market_open_position requireAuth rateLimit window now σ
          symbol side sz lev ro st sv =
        (ToolResult.errorPayload "Rate limit exceeded",
          (checkRateLimit requireAuth rateLimit window "default" now σ).2) ∧
      market_open_position requireAuth rateLimit window now σ
          symbol side sz lev ro st sv =
        market_open_position requireAuth rateLimit window now σ
          symbol side sz lev ro st sv2) ∧
    ((checkRateLimit requireAuth rateLimit window "default" now σ).1 = true →
      get_account_balance requireAuth rateLimit window now σ f =
        (ToolResult.ok (f ()),
          (checkRateLimit requireAuth rateLimit window "default" now σ).2) ∧
      market_open_position requireAuth rateLimit window now σ
          symbol side sz lev ro st sv =
        (ToolResult.ok (sv symbol side sz lev ro st),
          (checkRateLimit requireAuth rateLimit window "default" now σ).2)) := by
  constructor
  · intro h
    refine ⟨?_, ?_, ?_, ?_⟩ <;>
      simp [get_account_balance, market_open_position, h]
  · intro h
    constructor <;>
      simp [get_account_balance, market_open_position, h]

theorem tools_gate_on_rate_limiter_witness :
    ((checkRateLimit true 0 60 "default" 0 emptyStorage).1 = false ∧
      get_account_balance true 0 60 0 emptyStorage (fun _ => (7:ℕ)) =
        (ToolResult.errorPayload "Rate limit exceeded",
          (checkRateLimit true 0 60 "default" 0 emptyStorage).2)) ∧
    ((checkRateLimit true 1 60 "default" 0 emptyStorage).1 = true ∧
      market_open_position true 1 60 0 emptyStorage "BTC" "buy" 100 none false
          (1/20) (fun _ _ _ _ _ _ => (5:ℕ)) =
        (ToolResult.ok 5,
          (checkRateLimit true 1 60 "default" 0 emptyStorage).2)) :=
  ⟨⟨by decide,
    ((tools_gate_on_rate_limiter true 0 60 0 emptyStorage (fun _ => (7:ℕ))
        (fun _ => 8) "BTC" "buy" 100 none false (1/20)
        (fun _ _ _ _ _ _ => (5:ℕ)) (fun _ _ _ _ _ _ => 6)).1 (by decide)).1⟩,
   ⟨by decide,
    ((tools_gate_on_rate_limiter true 1 60 0 emptyStorage (fun _ => (7:ℕ))
        (fun _ => 8) "BTC" "buy" 100 none false (1/20)
        (fun _ _ _ _ _ _ => (5:ℕ)) (fun _ _ _ _ _ _ => 6)).2 (by decide)).2⟩⟩

/-- C10: the authentication middleware is installed exactly in the
HTTP-server branch of `main`: when the process is started with first
command-line argument "stdio" it is never installed, and in stdio mode
the only admission control a tool invocation undergoes is the rate
limiter inside the tool — `get_account_balance` yields the rate-limit
error payload precisely when `check_rate_limit` rejects, with no
API-key check anywhere on that path. -/
theorem stdio_mode_no_auth_middleware (argv : List String) :
    (runsInStdioMode argv = true → installsAuthMiddleware argv = false) ∧
    (runsInStdioMode argv = false → installsAuthMiddleware argv = true) ∧
    (∀ (α : Type) (rateLimit : ℕ) (window now : ℤ) (σ : Storage)
        (f : Unit → α),
      ((get_account_balance true rateLimit window now σ f).1 =
          ToolResult.errorPayload "Rate limit exceeded" ↔
        (checkRateLimit true rateLimit window "default" now σ).1 = false)) := by
  refine ⟨?_, ?_, ?_⟩
  · intro h
    simp [installsAuthMiddleware, h]
  · intro h
    simp [installsAuthMiddleware, h]
  · intro α rateLimit window now σ f
    by_cases h : (checkRateLimit true rateLimit window "default" now σ).1 = false
    · simp [get_account_balance, h]
    · have h2 : (checkRateLimit true rateLimit window "default" now σ).1 = true := by
        cases hb : (checkRateLimit true rateLimit window "default" now σ).1
        · exact absurd hb h
        · rfl
      simp [get_account_balance, h2]

theorem stdio_mode_no_auth_middleware_witness :
    (runsInStdioMode ["main_secure.py", "stdio"] = true ∧
      installsAuthMiddleware ["main_secure.py", "stdio"] = false) ∧
    (runsInStdioMode ["main_secure.py"] = false ∧
      installsAuthMiddleware ["main_secure.py"] = true) :=
  ⟨⟨by decide,
    (stdio_mode_no_auth_middleware ["main_secure.py", "stdio"]).1 (by decide)⟩,
   ⟨by decide,
    (stdio_mode_no_auth_middleware ["main_secure.py"]).2.1 (by decide)⟩⟩

end LandoTrade
